import Mathlib

/-!
Verification of the CookieRouter simulator core: a shallow embedding of
`cookie_clicker/game.py` (the `Game` economic state and its purchase
transitions) and `router.py` (the greedy payoff-load search), with theorems
about the embedded definitions.

Numeric convention: the Python code computes with floats that the design
treats as reals; the embedding uses `ℚ` (exact rationals), so `1.15` is the
exact constant `23/20` and `math.ceil` is `Int.ceil`.  Division in `ℚ` is
total (`x / 0 = 0`); the one place where the source can actually divide by
zero (`Game.spend` dividing by `rate()`) is additionally embedded as
`spendChecked`, which returns `none` exactly where Python would raise
`ZeroDivisionError`.

Effect callbacks: the source passes the whole `Game` object to every effect
function.  An inductive `Game` cannot contain functions that consume `Game`
itself, so effect callbacks here receive `EffCtx`, the gameplay fields of
the state (building counts, cookies, time, player parameters, history) —
everything the state holds except the effect lists themselves.
-/

/-- The gameplay fields of a state, as seen by effect callbacks. -/
structure EffCtx where
  building_names : List String
  num_buildings : String → Nat
  total_cookies : ℚ
  time_elapsed : ℚ
  player_cps : ℚ
  player_delay : ℚ
  target_cookies : ℚ
  hardcore_mode : Bool
  history : List String

/-- `class Effect`: a priority (higher applied first) and a rate transform
receiving the running rate and the game state. -/
structure Effect where
  priority : Int
  func : ℚ → EffCtx → ℚ

/-- `class Upgrade`: name, building-count requirements, price, and one
effect per target key. -/
structure Upgrade where
  name : String
  req : List (String × Nat)
  price : ℚ
  effects : List (String × Effect)

/-- `class Game`: version data (building names, base prices, base rates,
upgrade menu) plus gameplay and speedrun data.  Dicts are embedded as
functions from `String`; the upgrade `menu` (a Python `set`) as a list. -/
structure Game where
  building_names : List String
  base_prices : String → ℚ
  base_rates : String → ℚ
  menu : List Upgrade
  num_buildings : String → Nat
  effects : String → List Effect
  total_cookies : ℚ
  time_elapsed : ℚ
  player_cps : ℚ
  player_delay : ℚ
  target_cookies : ℚ
  hardcore_mode : Bool
  history : List String

/-- The view of a state that effect callbacks receive. -/
def Game.ctx (g : Game) : EffCtx :=
  ⟨g.building_names, g.num_buildings, g.total_cookies, g.time_elapsed,
   g.player_cps, g.player_delay, g.target_cookies, g.hardcore_mode, g.history⟩

/-- `Game.price_rate = 1.15`, the fixed exponential price-scaling constant. -/
def price_rate : ℚ := 23 / 20

/-- Apply a list of effects left to right to a running rate
(`for effect in effects: r = effect.func(r, self)`). -/
def applyEffects (es : List Effect) (r : ℚ) (c : EffCtx) : ℚ :=
  es.foldl (fun r e => e.func r c) r

/-- Stable insertion of an effect into a list sorted by descending priority:
the inserted element goes before the first element whose priority is not
greater, matching Python's stable `sorted(..., reverse=True)`. -/
def insertEff (x : Effect) : List Effect → List Effect
  | [] => [x]
  | y :: ys => if x.priority < y.priority then y :: insertEff x ys else x :: y :: ys

/-- `sorted(effects, reverse=True)`: stable sort by descending priority. -/
def sortEffectsDesc (es : List Effect) : List Effect :=
  es.foldr insertEff []

/-- `Game.building_rate`: base rate of the building, then the effects
registered under that building's key, sorted by descending priority. -/
def building_rate (g : Game) (name : String) : ℚ :=
  applyEffects (sortEffectsDesc (g.effects name)) (g.base_rates name) g.ctx

/-- `Game.building_only_rate`: sum `building_rate(name) * num_buildings[name]`
over the building list, then apply the effects under the `"all"` key in the
order they are stored (the source does not sort here). -/
def building_only_rate (g : Game) : ℚ :=
  applyEffects (g.effects "all")
    (g.building_names.foldl
      (fun r name => r + building_rate g name * (g.num_buildings name : ℚ)) 0)
    g.ctx

/-- `Game.mouse_rate`: start at `1.0`, apply the effects under the `"mouse"`
key in the order they are stored (the source does not sort here), then
multiply by `player_cps`. -/
def mouse_rate (g : Game) : ℚ :=
  applyEffects (g.effects "mouse") 1 g.ctx * g.player_cps

/-- `Game.rate`: current cookies per second. -/
def rate (g : Game) : ℚ :=
  building_only_rate g + mouse_rate g

/-- `Game.building_price`: `math.ceil(base_price * price_rate ** num_building)`. -/
def building_price (g : Game) (name : String) : ℤ :=
  ⌈g.base_prices name * price_rate ^ g.num_buildings name⌉

/-- `Game.has_satisfied`: every required building amount is owned. -/
def has_satisfied (g : Game) (req : List (String × Nat)) : Bool :=
  req.all fun p => g.num_buildings p.1 ≥ p.2

/-- `Game.completion_time`: elapsed time if the target is reached; `none`
("no completion possible") if the rate is zero; otherwise a linear
projection with no further purchases. -/
def completion_time (g : Game) : Option ℚ :=
  if g.total_cookies ≥ g.target_cookies then some g.time_elapsed
  else if rate g = 0 then none
  else some (g.time_elapsed + (g.target_cookies - g.total_cookies) / rate g)

/-- `Game.spend`: reject when the purchase would overshoot the target;
otherwise commit the cookies, then advance time.  When buildings alone
cannot cover the price within `player_delay` (or produce nothing at all),
the mouse contributes during `shared_mouse_price / rate()` of active time
plus the fixed delay; otherwise only `price / building_only_rate()` passes.
Division is `ℚ` division (total); `spendChecked` below tracks the one
division the source leaves unguarded. -/
def spend (g : Game) (price : ℚ) : Bool × Game :=
  if g.total_cookies + price > g.target_cookies then (false, g)
  else
    let g1 : Game := { g with total_cookies := g.total_cookies + price }
    let bor := building_only_rate g1
    if bor = 0 ∨ price / bor > g1.player_delay then
      let shared_mouse_price := price - g1.player_delay * bor
      let mouse_active_time := shared_mouse_price / rate g1
      (true, { g1 with
        time_elapsed := g1.time_elapsed + (mouse_active_time + g1.player_delay) })
    else
      (true, { g1 with time_elapsed := g1.time_elapsed + price / bor })

/-- `Game.spend` with the source's partiality made explicit: in the branch
where the source computes `shared_mouse_price / self.rate()`, a zero
`rate()` makes Python raise `ZeroDivisionError`; this version returns
`none` exactly there and agrees with `spend` everywhere else. -/
def spendChecked (g : Game) (price : ℚ) : Option (Bool × Game) :=
  if g.total_cookies + price > g.target_cookies then some (false, g)
  else
    let g1 : Game := { g with total_cookies := g.total_cookies + price }
    let bor := building_only_rate g1
    if bor = 0 ∨ price / bor > g1.player_delay then
      if rate g1 = 0 then none
      else
        let shared_mouse_price := price - g1.player_delay * bor
        let mouse_active_time := shared_mouse_price / rate g1
        some (true, { g1 with
          time_elapsed := g1.time_elapsed + (mouse_active_time + g1.player_delay) })
    else
      some (true, { g1 with time_elapsed := g1.time_elapsed + price / bor })

/-- `Game.purchase_building`: pay the current building price; on success
increment the building count and append the name to the history. -/
def purchase_building (g : Game) (name : String) : Bool × Game :=
  let price : ℚ := (building_price g name : ℚ)
  match spend g price with
  | (false, g') => (false, g')
  | (true, g') =>
    (true, { g' with
      num_buildings := fun n => if n = name then g'.num_buildings n + 1 else g'.num_buildings n
      history := g'.history ++ [name] })

/-- `Game.purchase_upgrade`: fail under hardcore mode or unmet building
requirements; otherwise pay the price and, on success, append each of the
upgrade's effects to its target's effect list, record the purchase, and
remove the upgrade from the menu. -/
def purchase_upgrade (g : Game) (u : Upgrade) : Bool × Game :=
  if g.hardcore_mode then (false, g)
  else if ¬ has_satisfied g u.req then (false, g)
  else
    match spend g u.price with
    | (false, g') => (false, g')
    | (true, g') =>
      (true, { g' with
        effects := u.effects.foldl
          (fun em p => fun n => if n = p.1 then em n ++ [p.2] else em n) g'.effects
        history := g'.history ++ [u.name]
        menu := g'.menu.filter fun v => v.name ≠ u.name })

/-- `Game.children`: one candidate per building then one per menu upgrade,
keeping only the clones whose purchase attempt succeeded. -/
def children (g : Game) : List Game :=
  (g.building_names.filterMap fun name =>
    match purchase_building g name with
    | (false, _) => none
    | (true, c) => some c) ++
  (g.menu.filterMap fun u =>
    match purchase_upgrade g u with
    | (false, _) => none
    | (true, c) => some c)

/-- `Router.descendants`: generation 0 is the state itself; generation
`n+1` is the descendants of every child, one generation lower. -/
def descendants (g : Game) : Nat → List Game
  | 0 => [g]
  | n + 1 => (children g).flatMap fun c => descendants c n

/-- The payoff loads of the scoreable descendants of `child`:
descendants whose `rate_change` is zero are skipped, the rest score
`price * (1 + game_rate / rate_change)` with `price = game_rate * time_change`. -/
def payoffs (game : Game) (game_rate : ℚ) (child : Game) (gen : Nat) : List ℚ :=
  (descendants child gen).filterMap fun d =>
    let rate_change := rate d - game_rate
    if rate_change = 0 then none
    else some (game_rate * (d.time_elapsed - game.time_elapsed) *
      (1 + game_rate / rate_change))

/-- Running minimum with strict comparison, as the source's
`if payoff_load < best_descendant_pl` loop computes it. -/
def bestPL (ps : List ℚ) : Option ℚ :=
  ps.foldl (fun acc pl =>
    match acc with
    | none => some pl
    | some b => if pl < b then some pl else some b) none

/-- One iteration of `Router.GPL_child`'s outer loop: a child with no
scoreable descendant contributes nothing; otherwise the first child whose
best-descendant payoff load is strictly smallest is kept. -/
def GPL_fold (game : Game) (gen : Nat) (best : Option (Game × ℚ)) (child : Game) :
    Option (Game × ℚ) :=
  match bestPL (payoffs game (rate game) child gen) with
  | none => best
  | some pl =>
    match best with
    | none => some (child, pl)
    | some (b, bpl) => if pl < bpl then some (child, pl) else some (b, bpl)

/-- The body of `Router.GPL_child`: fold over the children keeping the
first child whose best-descendant payoff load is strictly smallest. -/
def GPL_step (game : Game) (generation : Nat) : Option (Game × ℚ) :=
  (children game).foldl (GPL_fold game (generation - 1)) none

/-- `Router.GPL_child`: the child of `game` with the lowest payoff load,
or `none` when no child has a scoreable descendant. -/
def GPL_child (game : Game) (generation : Nat) : Option Game :=
  (GPL_step game generation).map Prod.fst

/-- `Router.route_GPL`: repeatedly replace the current state by
`GPL_child` until it returns `none`; `fuel` bounds the unmodelled
`while True` loop. -/
def route_GPL (fuel : Nat) (game : Game) (lookahead : Nat) : Game :=
  match fuel with
  | 0 => game
  | fuel + 1 =>
    match GPL_child game lookahead with
    | none => game
    | some child => route_GPL fuel child lookahead

/-- One successful purchase step: some `purchase_building` or
`purchase_upgrade` call that returned `True` took `g` to `g'`. -/
def successful_purchase (g g' : Game) : Prop :=
  (∃ name, purchase_building g name = (true, g')) ∨
  (∃ u, purchase_upgrade g u = (true, g'))

/-- The spec's reading of `mouseRate()`: the mouse effects applied in
descending priority order (the class comment on `Effect` says higher
priorities are applied first).  Kept separate to compare with the source's
`mouse_rate`, which applies them in storage order. -/
def mouse_rate_prioritized (g : Game) : ℚ :=
  applyEffects (sortEffectsDesc (g.effects "mouse")) 1 g.ctx * g.player_cps

/-- The spec's reading of `buildingOnlyRate()`: the `"all"`-target effects
applied to the summed per-building production in descending priority
order.  Kept separate to compare with the source's `building_only_rate`,
which applies them in storage order. -/
def building_only_rate_prioritized (g : Game) : ℚ :=
  applyEffects (sortEffectsDesc (g.effects "all"))
    (g.building_names.foldl
      (fun r name => r + building_rate g name * (g.num_buildings name : ℚ)) 0)
    g.ctx

/-! Concrete states used by the scenario theorems below. -/

/-- An upgrade whose single effect halves the mouse rate: its `rate_change`
is negative, which still passes the router's `rate_change == 0` filter. -/
def uNerf : Upgrade :=
  ⟨"Nerf", [], 10, [("mouse", ⟨0, fun r _ => r / 2⟩)]⟩

/-- One building too expensive to buy (price 1000 > target 20), one cheap
mouse-halving upgrade on the menu, one click per second, no delay. -/
def gNerf : Game :=
  ⟨["A"], (fun _ => 1000), (fun _ => 1), [uNerf], (fun _ => 0),
   (fun _ => []), 0, 0, 1, 0, 20, false, []⟩

/-- The minimal-building-purchase scenario: Cursor at base price 15, no
upgrades, player clicking 8 times per second with a 1-second delay. -/
def gCursor : Game :=
  ⟨["Cursor"], (fun _ => 15), (fun _ => 1/10), [], (fun _ => 0),
   (fun _ => []), 0, 0, 8, 1, 1000000, false, []⟩

/-- A building with the positive base price `3/2`: its price is 2 both at
count 0 and at count 1, since `⌈3/2⌉ = ⌈69/40⌉ = 2`. -/
def gHalf : Game :=
  ⟨["X"], (fun _ => 3/2), (fun _ => 1), [], (fun _ => 0),
   (fun _ => []), 0, 0, 0, 0, 1000000, false, []⟩

/-- `gHalf` after one `X` is owned. -/
def gHalf1 : Game :=
  { gHalf with num_buildings := fun _ => 1 }

/-- A low-priority additive effect: `r + 1` at priority 1. -/
def effAdd1 : Effect := ⟨1, fun r _ => r + 1⟩

/-- A high-priority doubling effect: `r * 2` at priority 2. -/
def effDouble : Effect := ⟨2, fun r _ => r * 2⟩

/-- A state whose `"mouse"` and `"all"` effect lists hold `effAdd1` before
`effDouble`, i.e. storage order is ascending priority: application order
then differs from descending-priority order ((1+1)*2 = 4 versus 1*2+1 = 3). -/
def gOrder : Game :=
  ⟨["A"], (fun _ => 10), (fun _ => 1), [],
   (fun _ => 1),
   (fun n => if n = "mouse" then [effAdd1, effDouble]
             else if n = "all" then [effAdd1, effDouble] else []),
   0, 0, 1, 0, 1000000, false, []⟩

/-- A stalled state: no buildings, no clicking, target not reached. -/
def gStall : Game :=
  ⟨["A"], (fun _ => 10), (fun _ => 1), [], (fun _ => 0),
   (fun _ => []), 0, 0, 0, 0, 100, false, []⟩

/-- A hardcore-mode state. -/
def gHard : Game :=
  ⟨["A"], (fun _ => 10), (fun _ => 1), [uNerf], (fun _ => 0),
   (fun _ => []), 0, 0, 1, 0, 100, true, []⟩

/-- An upgrade requiring five `A` buildings. -/
def uReq5 : Upgrade :=
  ⟨"Req5", [("A", 5)], 10, []⟩

/-- A state owning no buildings, so `uReq5`'s requirement is unmet. -/
def gReq : Game :=
  ⟨["A"], (fun _ => 10), (fun _ => 1), [uReq5], (fun _ => 0),
   (fun _ => []), 0, 0, 1, 0, 100, false, []⟩

/-- The state `gNerf` reaches by purchasing `uNerf`: ten cookies spent,
ten seconds of pure mouse saving, halving effect now active. -/
def cNerf : Game :=
  { gNerf with
    total_cookies := 10, time_elapsed := 10,
    effects := fun n => if n = "mouse" then [⟨0, fun r _ => r / 2⟩] else [],
    history := ["Nerf"], menu := [] }

/-- `gCursor` after one Cursor purchase: 15 cookies spent in `15/8 + 1`
seconds of mouse-only saving plus the purchase delay. -/
def cCursor1 : Game :=
  { gCursor with
    total_cookies := 15, time_elapsed := 23/8,
    num_buildings := fun n => if n = "Cursor" then 1 else 0,
    history := ["Cursor"] }

/-- `cCursor1` after a second Cursor purchase at price `⌈15 * 1.15⌉ = 18`. -/
def cCursor2 : Game :=
  { cCursor1 with
    total_cookies := 33, time_elapsed := 3943/648,
    num_buildings := fun n => if n = "Cursor" then 2 else 0,
    history := ["Cursor", "Cursor"] }

/-! Helper lemmas evaluating the embedded operations on the concrete
states above. -/

lemma rate_gNerf : rate gNerf = 1 := by
  norm_num [rate, building_only_rate, mouse_rate, building_rate, applyEffects,
    sortEffectsDesc, insertEff, gNerf, Game.ctx]

lemma rate_cNerf : rate cNerf = 1/2 := by
  norm_num [rate, building_only_rate, mouse_rate, building_rate, applyEffects,
    sortEffectsDesc, insertEff, cNerf, gNerf, Game.ctx,
    show ("all" : String) ≠ "mouse" from by decide,
    show ("A" : String) ≠ "mouse" from by decide]

lemma purchase_building_gNerf : purchase_building gNerf "A" = (false, gNerf) := by
  norm_num [purchase_building, spend, building_price, price_rate, gNerf,
    Int.ceil_eq_iff]

lemma purchase_upgrade_gNerf : purchase_upgrade gNerf uNerf = (true, cNerf) := by
  norm_num [purchase_upgrade, uNerf, gNerf, cNerf, has_satisfied, spend,
    building_only_rate, building_rate, mouse_rate, rate, applyEffects,
    sortEffectsDesc, insertEff, Game.ctx]

lemma purchase_building_gCursor : purchase_building gCursor "Cursor" = (true, cCursor1) := by
  norm_num [purchase_building, spend, building_price, price_rate, gCursor, cCursor1,
    building_only_rate, building_rate, mouse_rate, rate, applyEffects,
    sortEffectsDesc, insertEff, Game.ctx, Int.ceil_eq_iff]

lemma purchase_building_cCursor1 : purchase_building cCursor1 "Cursor" = (true, cCursor2) := by
  norm_num [purchase_building, spend, building_price, price_rate, gCursor, cCursor1,
    cCursor2, building_only_rate, building_rate, mouse_rate, rate, applyEffects,
    sortEffectsDesc, insertEff, Game.ctx,
    show (⌈(69 : ℚ)/4⌉ : ℤ) = 18 from by norm_num [Int.ceil_eq_iff]]
  funext n
  by_cases h : n = "Cursor" <;> simp [h]

lemma children_gNerf : children gNerf = [cNerf] := by
  simp only [children, gNerf]
  simp only [List.filterMap_cons, List.filterMap_nil]
  rw [show (⟨["A"], (fun _ => 1000), (fun _ => 1), [uNerf], (fun _ => 0),
      (fun _ => []), 0, 0, 1, 0, 20, false, []⟩ : Game) = gNerf from rfl]
  rw [purchase_building_gNerf, purchase_upgrade_gNerf]
  rfl

lemma bestPL_nil : bestPL [] = none := rfl

/-- Whatever `GPL_child`'s fold returns came from the child list and had at
least one scoreable descendant. -/
lemma GPL_fold_mem (game : Game) (gen : Nat) :
    ∀ (l : List Game) (acc : Option (Game × ℚ)),
      (∀ c pl, acc = some (c, pl) →
        c ∈ children game ∧ payoffs game (rate game) c gen ≠ []) →
      (∀ c ∈ l, c ∈ children game) →
      ∀ c pl, l.foldl (GPL_fold game gen) acc = some (c, pl) →
        c ∈ children game ∧ payoffs game (rate game) c gen ≠ [] := by
  intro l
  induction l with
  | nil =>
    intro acc hacc _ c pl h
    exact hacc c pl (by simpa using h)
  | cons child t ih =>
    intro acc hacc hl c pl h
    rw [List.foldl_cons] at h
    refine ih _ ?_ (fun c hc => hl c (List.mem_cons_of_mem _ hc)) c pl h
    intro c' pl' hacc'
    have hchild : child ∈ children game := hl child (List.mem_cons_self child t)
    unfold GPL_fold at hacc'
    split at hacc'
    · exact hacc c' pl' hacc'
    · rename_i pl0 hbp
      have hpay : payoffs game (rate game) child gen ≠ [] := by
        intro hnil
        rw [hnil, bestPL_nil] at hbp
        exact Option.noConfusion hbp
      split at hacc'
      · simp only [Option.some.injEq, Prod.mk.injEq] at hacc'
        obtain ⟨rfl, rfl⟩ := hacc'
        exact ⟨hchild, hpay⟩
      · rename_i bg bpl
        split at hacc'
        · simp only [Option.some.injEq, Prod.mk.injEq] at hacc'
          obtain ⟨rfl, rfl⟩ := hacc'
          exact ⟨hchild, hpay⟩
        · exact hacc c' pl' hacc'

/-- When no descendant of any child changes the rate, the fold never leaves
`none`. -/
lemma GPL_fold_none (game : Game) (gen : Nat) :
    ∀ (l : List Game),
      (∀ c ∈ l, payoffs game (rate game) c gen = []) →
      l.foldl (GPL_fold game gen) none = none := by
  intro l
  induction l with
  | nil => intro _; rfl
  | cons child t ih =>
    intro hl
    rw [List.foldl_cons]
    have : GPL_fold game gen none child = none := by
      unfold GPL_fold
      rw [hl child (List.mem_cons_self child t), bestPL_nil]
    rw [this]
    exact ih fun c hc => hl c (List.mem_cons_of_mem _ hc)

lemma GPL_child_gNerf : GPL_child gNerf 1 = some cNerf := by
  simp only [GPL_child, GPL_step, children_gNerf, List.foldl_cons, List.foldl_nil,
    GPL_fold, payoffs, descendants, bestPL, List.filterMap_cons, List.filterMap_nil,
    rate_gNerf, rate_cNerf]
  norm_num [cNerf, gNerf]

/-- C1 (amended): a router step with lookahead `L ≥ 1` that returns a chosen
child guarantees only that some generation-`(L-1)` descendant of that child
has `rate()` different from the pre-step `baseRate` (the filter drops only
`rateChange == 0`, so a rate decrease can still be chosen); and when every
such descendant of every child has `rateChange == 0`, the step returns no
child and the router terminates at the current state. -/
theorem GPL_child_scoreable_filter (g : Game) (L : Nat) (_hL : 1 ≤ L) :
    (∀ c, GPL_child g L = some c →
      ∃ d ∈ descendants c (L - 1), rate d ≠ rate g) ∧
    ((∀ c ∈ children g, ∀ d ∈ descendants c (L - 1), rate d = rate g) →
      GPL_child g L = none ∧ ∀ fuel, route_GPL fuel g L = g) := by
  constructor
  · intro c h
    rw [GPL_child] at h
    rcases Option.map_eq_some'.mp h with ⟨⟨c', pl⟩, hstep, hc⟩
    simp only at hc
    rw [← hc]
    obtain ⟨-, hpay⟩ :=
      GPL_fold_mem g (L - 1) (children g) none
        (fun _ _ h => Option.noConfusion h) (fun _ hc => hc) c' pl hstep
    unfold payoffs at hpay
    rw [Ne, List.filterMap_eq_nil_iff] at hpay
    push_neg at hpay
    obtain ⟨d, hd, hfd⟩ := hpay
    refine ⟨d, hd, fun heq => hfd ?_⟩
    simp only [heq, sub_self, if_pos]
  · intro hall
    have hnone : GPL_child g L = none := by
      rw [GPL_child, GPL_step, GPL_fold_none g (L - 1) (children g) ?_]
      · rfl
      intro c hc
      unfold payoffs
      rw [List.filterMap_eq_nil_iff]
      intro d hd
      simp only [sub_eq_zero.mpr (hall c hc d hd), if_pos]
    refine ⟨hnone, fun fuel => ?_⟩
    cases fuel with
    | zero => rfl
    | succ n => simp [route_GPL, hnone]

/-- C1 (counterexample): at `gNerf` with lookahead 1 the router step chooses
the mouse-halving upgrade — its rate change `-1/2` passes the
`rateChange == 0` filter and its payoff load is negative — so the chosen
child's `rate()` `1/2` is strictly below the pre-step base rate `1`. -/
theorem GPL_child_gNerf_lowers_rate :
    (GPL_child gNerf 1).map rate = some (1/2) ∧ rate gNerf = 1 ∧
    ¬ (∀ c, GPL_child gNerf 1 = some c → rate gNerf < rate c) := by
  refine ⟨?_, rate_gNerf, fun hall => ?_⟩
  · rw [GPL_child_gNerf, Option.map_some', rate_cNerf]
  · have := hall cNerf GPL_child_gNerf
    rw [rate_gNerf, rate_cNerf] at this
    norm_num at this

/-- Witness: the amended C1 theorem instantiated at `gNerf`, lookahead 1. -/
theorem GPL_child_scoreable_filter_witness :
    (∀ c, GPL_child gNerf 1 = some c →
      ∃ d ∈ descendants c (1 - 1), rate d ≠ rate gNerf) ∧
    ((∀ c ∈ children gNerf, ∀ d ∈ descendants c (1 - 1), rate d = rate gNerf) →
      GPL_child gNerf 1 = none ∧ ∀ fuel, route_GPL fuel gNerf 1 = gNerf) :=
  GPL_child_scoreable_filter gNerf 1 (by norm_num)

/-- C2: for a purchase within budget, `spend` succeeds and advances
`timeElapsed` by exactly `(price - playerPurchaseDelay * bor) / rate() +
playerPurchaseDelay` when `bor = 0` or `price / bor > playerPurchaseDelay`,
and by exactly `price / bor` otherwise, where `bor` and `rate()` are
measured on the state with the price already committed, as the source
computes them. -/
theorem spend_advances_time (g : Game) (price : ℚ)
    (hbudget : g.total_cookies + price ≤ g.target_cookies) :
    (spend g price).1 = true ∧
    (spend g price).2.time_elapsed - g.time_elapsed =
      (if building_only_rate { g with total_cookies := g.total_cookies + price } = 0 ∨
          price / building_only_rate { g with total_cookies := g.total_cookies + price } >
            g.player_delay
       then (price - g.player_delay *
              building_only_rate { g with total_cookies := g.total_cookies + price }) /
              rate { g with total_cookies := g.total_cookies + price } + g.player_delay
       else price / building_only_rate { g with total_cookies := g.total_cookies + price }) := by
  unfold spend
  rw [if_neg (not_lt.mpr hbudget)]
  dsimp only
  split_ifs with h
  · refine ⟨rfl, ?_⟩
    ring
  · refine ⟨rfl, ?_⟩
    ring

/-- Witness: C2 instantiated at `gCursor` buying 15 cookies. -/
theorem spend_advances_time_witness :
    (spend gCursor 15).1 = true ∧
    (spend gCursor 15).2.time_elapsed - gCursor.time_elapsed =
      (if building_only_rate { gCursor with total_cookies := gCursor.total_cookies + 15 } = 0 ∨
          15 / building_only_rate { gCursor with total_cookies := gCursor.total_cookies + 15 } >
            gCursor.player_delay
       then (15 - gCursor.player_delay *
              building_only_rate { gCursor with total_cookies := gCursor.total_cookies + 15 }) /
              rate { gCursor with total_cookies := gCursor.total_cookies + 15 } +
              gCursor.player_delay
       else 15 / building_only_rate { gCursor with total_cookies := gCursor.total_cookies + 15 }) :=
  spend_advances_time gCursor 15 (by norm_num [gCursor])

/-- C3: `spend` returns failure with the state untouched exactly when the
purchase would push `totalCookies` past `targetCookies`; on success it adds
exactly the price to `totalCookies`. -/
theorem spend_reject_iff_overshoot (g : Game) (price : ℚ) :
    (spend g price = (false, g) ↔ g.total_cookies + price > g.target_cookies) ∧
    (∀ g', spend g price = (true, g') →
      g'.total_cookies = g.total_cookies + price) := by
  constructor
  · constructor
    · intro h
      by_contra hc
      unfold spend at h
      rw [if_neg hc] at h
      dsimp only at h
      split_ifs at h with h2 <;> exact Bool.noConfusion (congrArg Prod.fst h)
    · intro h
      unfold spend
      rw [if_pos h]
  · intro g' h
    unfold spend at h
    dsimp only at h
    split_ifs at h with h1 h2 <;>
      [exact Bool.noConfusion (congrArg Prod.fst h); skip; skip] <;>
      · have hst := congrArg Prod.snd h
        simp only at hst
        rw [← hst]

/-- Witness: C3 instantiated at `gStall` — a 200-cookie purchase against a
target of 100 is rejected unchanged, and a 10-cookie `spend` on `gNerf`
adds exactly 10. -/
theorem spend_reject_iff_overshoot_witness :
    spend gStall 200 = (false, gStall) ∧
    ∀ g', spend gNerf 10 = (true, g') → g'.total_cookies = gNerf.total_cookies + 10 :=
  ⟨(spend_reject_iff_overshoot gStall 200).1.mpr (by norm_num [gStall]),
   (spend_reject_iff_overshoot gNerf 10).2⟩

/-- C4 (counterexample): two successful Cursor purchases from the minimal
scenario leave 33 total cookies, not 32 — the second price is
`⌈15 * 1.15⌉ = ⌈17.25⌉ = 18`, not 17. -/
theorem cursor_pair_total_ne_32 :
    purchase_building gCursor "Cursor" = (true, cCursor1) ∧
    purchase_building cCursor1 "Cursor" = (true, cCursor2) ∧
    cCursor2.num_buildings "Cursor" = 2 ∧
    cCursor2.total_cookies = 33 ∧ cCursor2.total_cookies ≠ 32 := by
  refine ⟨purchase_building_gCursor, purchase_building_cCursor1, by simp [cCursor2],
    rfl, by norm_num [cCursor2, cCursor1, gCursor]⟩

/-- C4 (amended): from the minimal scenario, two `purchaseBuilding('Cursor')`
calls succeed and leave two Cursors and `15 + ⌈15 * 1.15⌉ = 15 + 18 = 33`
total cookies. -/
theorem cursor_pair_total_33 :
    purchase_building gCursor "Cursor" = (true, cCursor1) ∧
    purchase_building cCursor1 "Cursor" = (true, cCursor2) ∧
    cCursor2.num_buildings "Cursor" = 2 ∧
    building_price gCursor "Cursor" = 15 ∧
    building_price cCursor1 "Cursor" = ⌈(15 : ℚ) * (23/20)⌉ ∧
    (⌈(15 : ℚ) * (23/20)⌉ : ℤ) = 18 ∧
    cCursor2.total_cookies = 15 + 18 := by
  refine ⟨purchase_building_gCursor, purchase_building_cCursor1, by simp [cCursor2],
    ?_, ?_, by norm_num [Int.ceil_eq_iff], by norm_num [cCursor2]⟩
  · norm_num [building_price, gCursor, price_rate, Int.ceil_eq_iff]
  · norm_num [building_price, cCursor1, gCursor, price_rate]

/-- C5 (counterexample): with the positive base price `3/2`, the building
price is 2 both at count 0 and at count 1, so `buildingPrice` is not
strictly increasing in the count. -/
theorem building_price_not_strictly_increasing :
    gHalf.base_prices "X" = 3/2 ∧ (0 : ℚ) < 3/2 ∧
    gHalf.num_buildings "X" = 0 ∧ gHalf1.num_buildings "X" = 1 ∧
    building_price gHalf "X" = 2 ∧ building_price gHalf1 "X" = 2 := by
  refine ⟨rfl, by norm_num, rfl, rfl, ?_, ?_⟩ <;>
    norm_num [building_price, gHalf, gHalf1, price_rate, Int.ceil_eq_iff]

/-- C5 (amended): for positive base price, `buildingPrice` equals
`⌈basePrice * 1.15^n⌉` and is non-decreasing in the count `n`; it is
strictly increasing whenever `basePrice * 1.15^n ≥ 20/3` (in particular for
every catalog base price, all of which are at least 15). -/
theorem building_price_formula_mono (g g' : Game) (name : String) (n : Nat)
    (hb : 0 < g.base_prices name)
    (hn : g.num_buildings name = n)
    (hb' : g'.base_prices name = g.base_prices name)
    (hn' : g'.num_buildings name = n + 1) :
    building_price g name = ⌈g.base_prices name * price_rate ^ n⌉ ∧
    building_price g name ≤ building_price g' name ∧
    (20/3 ≤ g.base_prices name * price_rate ^ n →
      building_price g name < building_price g' name) := by
  have hx : 0 < g.base_prices name * price_rate ^ n :=
    mul_pos hb (pow_pos (by norm_num [price_rate]) n)
  refine ⟨by rw [building_price, hn], ?_, ?_⟩
  · rw [building_price, building_price, hn, hn', hb']
    apply Int.ceil_le_ceil
    rw [pow_succ, ← mul_assoc]
    exact le_mul_of_one_le_right hx.le (by norm_num [price_rate])
  · intro h20
    rw [building_price, building_price, hn, hn', hb', Int.lt_ceil]
    have h1 : (⌈g.base_prices name * price_rate ^ n⌉ : ℚ) <
        g.base_prices name * price_rate ^ n + 1 := Int.ceil_lt_add_one _
    have h2 : g.base_prices name * price_rate ^ n + 1 ≤
        g.base_prices name * price_rate ^ (n + 1) := by
      rw [pow_succ, ← mul_assoc]
      simp only [price_rate] at h20 ⊢
      linarith
    linarith

/-- Witness: the amended C5 theorem instantiated at the Cursor scenario,
count 0 to count 1. -/
theorem building_price_formula_mono_witness :
    building_price gCursor "Cursor" = ⌈gCursor.base_prices "Cursor" * price_rate ^ 0⌉ ∧
    building_price gCursor "Cursor" ≤ building_price cCursor1 "Cursor" ∧
    (20/3 ≤ gCursor.base_prices "Cursor" * price_rate ^ 0 →
      building_price gCursor "Cursor" < building_price cCursor1 "Cursor") :=
  building_price_formula_mono gCursor cCursor1 "Cursor" 0
    (by norm_num [gCursor]) rfl rfl (by simp [cCursor1])

/-- C6 (code evaluated at the failing input): with the `"mouse"` and `"all"`
effect lists holding the priority-1 effect `r+1` before the priority-2
effect `r*2`, the source applies them in storage order and returns rate 4,
while the documented descending-priority order yields 3. -/
theorem mouse_and_all_effects_storage_order :
    mouse_rate gOrder = 4 ∧ mouse_rate_prioritized gOrder = 3 ∧
    building_only_rate gOrder = 4 ∧ building_only_rate_prioritized gOrder = 3 := by
  refine ⟨?_, ?_, ?_, ?_⟩ <;>
    norm_num [mouse_rate, mouse_rate_prioritized, building_only_rate,
      building_only_rate_prioritized, building_rate, applyEffects, sortEffectsDesc,
      insertEff, effAdd1, effDouble, gOrder, Game.ctx,
      show ("A" : String) ≠ "mouse" from by decide,
      show ("A" : String) ≠ "all" from by decide,
      show ("all" : String) ≠ "mouse" from by decide]

lemma spend_true_budget (g : Game) (price : ℚ) (g' : Game)
    (h : spend g price = (true, g')) :
    g'.total_cookies ≤ g'.target_cookies := by
  unfold spend at h
  dsimp only at h
  split_ifs at h with h1 h2 <;>
    [exact Bool.noConfusion (congrArg Prod.fst h); skip; skip] <;>
    · have hst := congrArg Prod.snd h
      simp only at hst
      rw [← hst]
      exact not_lt.mp h1

lemma successful_purchase_budget (g g' : Game) (h : successful_purchase g g') :
    g'.total_cookies ≤ g'.target_cookies := by
  rcases h with ⟨name, h⟩ | ⟨u, h⟩
  · unfold purchase_building at h
    dsimp only at h
    split at h
    · exact Bool.noConfusion (congrArg Prod.fst h)
    · rename_i g0 heq
      have hst := congrArg Prod.snd h
      simp only at hst
      rw [← hst]
      show g0.total_cookies ≤ g0.target_cookies
      exact spend_true_budget _ _ _ heq
  · unfold purchase_upgrade at h
    split_ifs at h with h1 h2
    · exact Bool.noConfusion (congrArg Prod.fst h)
    · split at h
      · exact Bool.noConfusion (congrArg Prod.fst h)
      · rename_i g0 heq
        have hst := congrArg Prod.snd h
        simp only at hst
        rw [← hst]
        show g0.total_cookies ≤ g0.target_cookies
        exact spend_true_budget _ _ _ heq
    · exact Bool.noConfusion (congrArg Prod.fst h)

/-- C7: from any state within budget, every state reachable by a sequence
of successful `purchase_building`/`purchase_upgrade` steps stays within
budget: `totalCookies ≤ targetCookies`. -/
theorem budget_invariant (g g' : Game)
    (h0 : g.total_cookies ≤ g.target_cookies)
    (h : Relation.ReflTransGen successful_purchase g g') :
    g'.total_cookies ≤ g'.target_cookies := by
  induction h with
  | refl => exact h0
  | tail _ hstep _ => exact successful_purchase_budget _ _ hstep

/-- Witness: C7 along the one-step path `gCursor → cCursor1`. -/
theorem budget_invariant_witness :
    cCursor1.total_cookies ≤ cCursor1.target_cookies :=
  budget_invariant gCursor cCursor1 (by norm_num [gCursor])
    (Relation.ReflTransGen.single (Or.inl ⟨"Cursor", purchase_building_gCursor⟩))

lemma rate_gStall : rate gStall = 0 := by
  norm_num [rate, building_only_rate, mouse_rate, building_rate, applyEffects,
    sortEffectsDesc, insertEff, gStall, Game.ctx]

/-- C8: `completionTime()` is the elapsed time once the target is reached,
`none` ("no completion possible") when the rate is zero short of the
target, and the linear projection `timeElapsed + remaining / rate()`
otherwise. -/
theorem completion_time_cases (g : Game) :
    (g.total_cookies ≥ g.target_cookies → completion_time g = some g.time_elapsed) ∧
    (g.total_cookies < g.target_cookies → rate g = 0 → completion_time g = none) ∧
    (g.total_cookies < g.target_cookies → rate g ≠ 0 →
      completion_time g = some (g.time_elapsed +
        (g.target_cookies - g.total_cookies) / rate g)) := by
  refine ⟨fun h => ?_, fun h hr => ?_, fun h hr => ?_⟩
  · rw [completion_time, if_pos h]
  · rw [completion_time, if_neg (not_le.mpr h), if_pos hr]
  · rw [completion_time, if_neg (not_le.mpr h), if_neg hr]

/-- Witness: C8 at the stalled state `gStall` — no finite completion. -/
theorem completion_time_cases_witness :
    completion_time gStall = none :=
  (completion_time_cases gStall).2.1 (by norm_num [gStall]) rate_gStall

/-- C9: `purchase_upgrade` returns failure with the state entirely
unchanged when `hardcoreMode` is set, and likewise when some building
requirement of the upgrade is unmet. -/
theorem purchase_upgrade_rejects_unchanged (g : Game) (u : Upgrade) :
    (g.hardcore_mode = true → purchase_upgrade g u = (false, g)) ∧
    (has_satisfied g u.req = false → purchase_upgrade g u = (false, g)) := by
  constructor
  · intro h
    unfold purchase_upgrade
    rw [if_pos h]
  · intro h
    unfold purchase_upgrade
    by_cases hh : g.hardcore_mode
    · rw [if_pos hh]
    · rw [if_neg hh, if_pos (by simp [h])]

/-- Witness: C9 at the hardcore state `gHard` and at `gReq`, whose only
upgrade requires five unowned buildings. -/
theorem purchase_upgrade_rejects_unchanged_witness :
    purchase_upgrade gHard uNerf = (false, gHard) ∧
    purchase_upgrade gReq uReq5 = (false, gReq) :=
  ⟨(purchase_upgrade_rejects_unchanged gHard uNerf).1 rfl,
   (purchase_upgrade_rejects_unchanged gReq uReq5).2 (by decide)⟩

/-- C10: at `gStall` (zero rate: no buildings, no clicking) a 10-cookie
`spend` is within budget, yet the source's unguarded
`shared_mouse_price / self.rate()` divides by zero — `spendChecked`
returns `none` (Python raises `ZeroDivisionError`) instead of any
success/failure value. -/
theorem spend_divides_by_zero_rate :
    rate gStall = 0 ∧
    gStall.total_cookies + 10 ≤ gStall.target_cookies ∧
    spendChecked gStall 10 = none := by
  refine ⟨rate_gStall, by norm_num [gStall], ?_⟩
  norm_num [spendChecked, gStall, rate, building_only_rate, mouse_rate,
    building_rate, applyEffects, sortEffectsDesc, insertEff, Game.ctx]
